import Mathlib

/- Verification of babeldoc/document_il/midend/il_translator.py (wlc952/BabelDOC).

   Shallow embedding conventions:
   * Python strings are lists of characters (Str).
   * Python object mutation is explicit state passing; functions return the
     updated objects.  Exceptions are modelled with explicit error values
     that the caller observes.
   * The translator backend, tokenizer, config flags, font mapper and the
     style predicates from layout_helper (which is not part of the translated
     source file) are opaque parameters, bundled in ILCtx.
   * Placeholder token providers are modelled in their default shape: the
     provider returns a bare token, so the regex pattern attached to a
     placeholder is re.escape(token), i.e. a literal (case-insensitive at
     search time, per re.IGNORECASE) occurrence of the token itself.  The
     reparser's patterns are therefore: a literal token for a formula
     placeholder and left + lazy dot-star + right for a rich text one.
   * re.IGNORECASE is modelled by comparing lowercased characters; the dot in
     a pattern does not match a newline (Python default, no DOTALL).
   * Unbounded Python recursions (placeholder id retry) take a fuel
     parameter; regex scans take fuel large enough to cover the text.
   * Progress bars, logging, cancellation checks and the tracking-file output
     are elided: they do not affect the values the claims are about. -/

namespace BabelDoc

abbrev Str := List Char

/-- Characters of a string literal, for concrete test inputs. -/
def pyStr (s : String) : Str := s.toList

/- ---------------------------------------------------------------------
   Data model: the intermediate-language types from babeldoc.document_il
   as used by il_translator.  Exactly one variant of a composition is
   populated in the IL, so compositions are a closed sum.
   --------------------------------------------------------------------- -/

structure PdfCharacter where
  char_unicode : Str
deriving DecidableEq

structure PdfFormula where
  pdf_character : List PdfCharacter
deriving DecidableEq

structure PdfStyle where
  font_id : Nat
  attrs : Nat
deriving DecidableEq

structure PdfFont where
  font_id : Nat
deriving DecidableEq

structure PdfSameStyleCharacters where
  pdf_character : List PdfCharacter
  pdf_style : PdfStyle
deriving DecidableEq

structure PdfSameStyleUnicodeCharacters where
  unicode : Str
  pdf_style : Option PdfStyle
deriving DecidableEq

inductive PdfParagraphComposition where
  | pdf_line (pdf_character : List PdfCharacter)
  | pdf_formula (f : PdfFormula)
  | pdf_character (c : PdfCharacter)
  | pdf_same_style_characters (s : PdfSameStyleCharacters)
  | pdf_same_style_unicode_characters (u : PdfSameStyleUnicodeCharacters)
deriving DecidableEq

structure PdfParagraph where
  unicode : Str
  pdf_paragraph_composition : List PdfParagraphComposition
  pdf_style : PdfStyle
  vertical : Bool
  xobj_id : Option Nat
  layout_label : Str
deriving DecidableEq

/-- Modelled from the spec: layout_helper.get_char_unicode_string is not part
of the translated source file; per the spec the flattened text of a character
sequence is the concatenation of each character's unicode. -/
def get_char_unicode_string (chars : List PdfCharacter) : Str :=
  (chars.map PdfCharacter.char_unicode).flatten

/- ---------------------------------------------------------------------
   Placeholders (il_translator.RichTextPlaceholder / FormulaPlaceholder).
   The regex-pattern fields are the literal tokens themselves (the
   re.escape default), so they are not stored separately.
   --------------------------------------------------------------------- -/

inductive Placeholder where
  | formula (id : Nat) (f : PdfFormula) (token : Str)
  | rich (id : Nat) (composition : PdfSameStyleCharacters) (left right : Str)
deriving DecidableEq

def Placeholder.isFormulaPh : Placeholder → Bool
  | .formula .. => true
  | .rich .. => false

def Placeholder.phId : Placeholder → Nat
  | .formula i _ _ => i
  | .rich i _ _ _ => i

def Placeholder.tokenStr : Placeholder → Str
  | .formula _ _ t => t
  | .rich .. => []

def Placeholder.leftStr : Placeholder → Str
  | .formula .. => []
  | .rich _ _ l _ => l

def Placeholder.rightStr : Placeholder → Str
  | .formula .. => []
  | .rich _ _ _ r => r

structure TranslateInput where
  unicode : Str
  placeholders : List Placeholder
  base_style : PdfStyle
deriving DecidableEq

/-- Python exceptions that can escape the steps the claims are about. -/
inductive PyErr where
  | stopIteration
  | attributeError
  | backendError
deriving DecidableEq

instance {ε α : Type} [DecidableEq ε] [DecidableEq α] : DecidableEq (Except ε α) := fun a b =>
  match a, b with
  | .error x, .error y =>
    match decEq x y with
    | isTrue h => isTrue (by rw [h])
    | isFalse h => isFalse (by intro hh; injection hh; contradiction)
  | .ok x, .ok y =>
    match decEq x y with
    | isTrue h => isTrue (by rw [h])
    | isFalse h => isFalse (by intro hh; injection hh; contradiction)
  | .error _, .ok _ => isFalse (by intro h; cases h)
  | .ok _, .error _ => isFalse (by intro h; cases h)

/-- Python's substring containment, needle in hay. -/
def inStr : Str → Str → Bool
  | n, [] => n.isEmpty
  | n, c :: rest => n.isPrefixOf (c :: rest) || inStr n rest

/- ---------------------------------------------------------------------
   Regex machinery for parse_translate_output, specialised to the pattern
   shapes the code builds: literal tokens and left.*?right (lazy).
   --------------------------------------------------------------------- -/

/-- Case-insensitive character comparison (re.IGNORECASE). -/
def chEqCI (a b : Char) : Bool := a.toLower == b.toLower

/-- Case-insensitive "pattern p matches at the start of s". -/
def startsWithCI : Str → Str → Bool
  | [], _ => true
  | _ :: _, [] => false
  | a :: as, b :: bs => chEqCI a b && startsWithCI as bs

/-- Lazy search for the right delimiter: the smallest offset m such that r
matches (case-insensitively) at m, with no newline before it (the dot of the
lazy gap does not match a newline). -/
def findRight (r : Str) : Str → Option Nat
  | [] => if startsWithCI r [] then some 0 else none
  | c :: rest =>
    if startsWithCI r (c :: rest) then some 0
    else if c == '\n' then none
    else (findRight r rest).map (· + 1)

/-- One alternative of the combined pattern: a literal token (formula
placeholder or a strip alternative) or left.*?right (rich text). -/
inductive PlAlt where
  | lit (tok : Str)
  | wrap (l r : Str)
deriving DecidableEq

/-- Length of the match of one alternative at the start of s, if any. -/
def altMatchLen : PlAlt → Str → Option Nat
  | .lit tok, s => if startsWithCI tok s then some tok.length else none
  | .wrap l r, s =>
    if startsWithCI l s then
      (findRight r (s.drop l.length)).map (fun m => l.length + m + r.length)
    else none

/-- First alternative (in pattern order) matching at the start of s. -/
def firstAltLen : List PlAlt → Str → Option Nat
  | [], _ => none
  | a :: as, s =>
    match altMatchLen a s with
    | some len => some len
    | none => firstAltLen as s

/-- Leftmost match of the alternation: offset of the first position where
some alternative matches, and the length the first such alternative matches
with (Python alternation takes the first alternative that matches at the
leftmost position). -/
def findMatch (alts : List PlAlt) : Str → Option (Nat × Nat)
  | [] =>
    match firstAltLen alts [] with
    | some len => some (0, len)
    | none => none
  | c :: rest =>
    match firstAltLen alts (c :: rest) with
    | some len => some (0, len)
    | none => (findMatch alts (rest : Str)).map (fun p => (p.1 + 1, p.2))

/-- A segment of the scanned text: plain text between matches, or a match. -/
inductive Seg where
  | gap (src : Str)
  | hit (src : Str)
deriving DecidableEq

def Seg.src : Seg → Str
  | .gap s => s
  | .hit s => s

/-- The finditer scan as a segment list.  t is the text after the previous
match end (last_end); d is the extra scan offset (1 right after a zero-width
match, Python bumps the scan position by one; 0 otherwise).  Fuel makes the
recursion structural so that the kernel can evaluate it. -/
def scanSegsF (alts : List PlAlt) : Nat → Str → Nat → List Seg
  | 0, _, _ => []
  | fuel + 1, t, d =>
    if t.length < d then []
    else
      match findMatch alts (t.drop d) with
      | none => if t.isEmpty then [] else [Seg.gap t]
      | some (j, len) =>
        (if (t.take (d + j)).isEmpty then [] else [Seg.gap (t.take (d + j))]) ++
          Seg.hit ((t.drop (d + j)).take len) ::
            scanSegsF alts fuel (t.drop (d + j + len)) (if len = 0 then 1 else 0)

/-- Segment decomposition of a text by the finditer scan of the alternation. -/
def scanSegs (alts : List PlAlt) (t : Str) (d : Nat) : List Seg :=
  scanSegsF alts (2 * t.length + 2) t d

/- ---------------------------------------------------------------------
   parse_translate_output (il_translator.py lines 552-695).
   --------------------------------------------------------------------- -/

/-- The capture pattern of one placeholder: a formula placeholder captures
its literal token; a rich text placeholder captures left.*?right. -/
def captureAlt : Placeholder → PlAlt
  | .formula _ _ tok => .lit tok
  | .rich _ _ l r => .wrap l r

def captureAlts (ps : List Placeholder) : List PlAlt := ps.map captureAlt

/-- The strip pattern alternatives (combined_placeholder_pattern): the literal
token for a formula placeholder, the left and the right token separately for
a rich text placeholder, in placeholder order. -/
def stripAlts (ps : List Placeholder) : List PlAlt :=
  (ps.map (fun p =>
    match p with
    | .formula _ _ tok => [PlAlt.lit tok]
    | .rich _ _ l r => [PlAlt.lit l, PlAlt.lit r])).flatten

/-- remove_placeholder: re.sub of the combined strip pattern with "", i.e.
keep only the text between matches of the strip alternation. -/
def removePlaceholder (ps : List Placeholder) (s : Str) : Str :=
  ((scanSegs (stripAlts ps) s 0).filterMap (fun seg =>
    match seg with
    | Seg.gap g => some g
    | Seg.hit _ => none)).flatten

/-- text.replace(" ", "") as used by the space-insensitive comparison. -/
def removeSpaces (s : Str) : Str := s.filter (fun c => !(c == ' '))

/-- The formula placeholder whose token equals the matched text exactly
(case-sensitive ==, unlike the IGNORECASE search). -/
def findFormulaExact (ps : List Placeholder) (s : Str) : Option Placeholder :=
  ps.find? (fun p =>
    match p with
    | .formula _ _ tok => s == tok
    | .rich .. => false)

/-- The first rich text placeholder whose left pattern matches at the start
of the matched text (re.match, case-sensitive). -/
def findRichByLeft (ps : List Placeholder) (s : Str) : Option Placeholder :=
  ps.find? (fun p =>
    match p with
    | .formula .. => false
    | .rich _ _ l _ => l.isPrefixOf s)

/-- re.match("^" ++ left ++ "(.*)" ++ right ++ "$", s) without flags: the
greedy group between the anchored delimiters; the dot does not cross a
newline and the dollar also accepts a single trailing newline.  Returns the
captured group. -/
def pyAnchorInner (l r s : Str) : Option Str :=
  if l.isPrefixOf s then
    (List.range (s.length - l.length + 1)).reverse.findSome? (fun n =>
      let body := s.drop l.length
      let inner := body.take n
      if inner.all (fun c => !(c == '\n')) &&
          (body.drop n == r || body.drop n == r ++ ['\n']) then
        some inner
      else none)
  else none

/-- One step of the finditer loop body: turn a segment into a composition.
A gap becomes a pre-translated-unicode composition with stray tokens
stripped; a hit is disambiguated: exact token equality picks a formula
placeholder (the original formula object is emitted), otherwise the first
rich placeholder whose left pattern matches is used — the inner text is
compared space-insensitively with the original run and either the original
run or a fresh styled composition is emitted.  A failing next() raises
StopIteration; a failing anchored re.match raises AttributeError (None has
no attribute group). -/
def renderSeg (ps : List Placeholder) (base : PdfStyle) :
    Seg → Except PyErr PdfParagraphComposition
  | .gap s =>
    .ok (.pdf_same_style_unicode_characters ⟨removePlaceholder ps s, some base⟩)
  | .hit s =>
    match findFormulaExact ps s with
    | some (.formula _ f _) => .ok (.pdf_formula f)
    | _ =>
      match findRichByLeft ps s with
      | some (.rich _ comp l r) =>
        match pyAnchorInner l r s with
        | some inner =>
          if removeSpaces inner == removeSpaces (get_char_unicode_string comp.pdf_character) then
            .ok (.pdf_same_style_characters comp)
          else
            .ok (.pdf_same_style_unicode_characters
              ⟨removePlaceholder ps inner, some comp.pdf_style⟩)
        | none => .error .attributeError
      | _ => .error .stopIteration

/-- The finditer loop: render the segments in order, propagating the first
exception. -/
def renderAll (ps : List Placeholder) (base : PdfStyle) :
    List Seg → Except PyErr (List PdfParagraphComposition)
  | [] => .ok []
  | s :: rest =>
    match renderSeg ps base s with
    | .error e => .error e
    | .ok c =>
      match renderAll ps base rest with
      | .error e => .error e
      | .ok cs => .ok (c :: cs)

/-- Result of parse_translate_output: the composition list (or the raised
exception) plus whether set_placeholder_full_match was signalled on the
attempt tracker (which the code does before the scanning loop, so the flag
survives a later exception). -/
structure ParseOut where
  result : Except PyErr (List PdfParagraphComposition)
  fullMatch : Bool
deriving DecidableEq

/-- parse_translate_output.  If there are no placeholders, the whole output
is one pre-translated-unicode composition with the base style and the
attempt is a (trivial) full match.  Otherwise every placeholder's capture
pattern is searched in the output (IGNORECASE) for the full-match flag and
the combined alternation is scanned left to right. -/
def parse_translate_output (ti : TranslateInput) (output : Str) : ParseOut :=
  if ti.placeholders.isEmpty then
    ⟨.ok [.pdf_same_style_unicode_characters ⟨output, some ti.base_style⟩], true⟩
  else
    ⟨renderAll ti.placeholders ti.base_style
        (scanSegs (captureAlts ti.placeholders) output 0),
      ti.placeholders.all (fun p => (findMatch [captureAlt p] output).isSome)⟩

/- ---------------------------------------------------------------------
   The ILTranslator context: collaborators and configuration.
   --------------------------------------------------------------------- -/

structure ILCtx where
  getFormularPlaceholder : Nat → Str
  getRichTextLeftPlaceholder : Nat → Str
  getRichTextRightPlaceholder : Nat → Str
  disable_rich_text_translate : Bool
  min_text_length : Nat
  support_llm_translate : Bool
  isSameStyle : PdfStyle → PdfStyle → Bool
  isSameStyleExceptFont : PdfStyle → PdfStyle → Bool
  isSameStyleExceptSize : PdfStyle → PdfStyle → Bool
  fontMapperMap : PdfFont → Option PdfFont
  placeholderFuel : Nat
  promptOf : Str → Str
  engine : Str → Except PyErr Str
  tokenizerEncode : Str → Except PyErr (List Nat)

/- ---------------------------------------------------------------------
   Placeholder factory (il_translator.py lines 335-388).  The Python
   recursion is unbounded; fuel models it, with none for exhaustion.
   --------------------------------------------------------------------- -/

/-- create_formula_placeholder: ask the engine for a token for this id; if
the token occurs verbatim in the paragraph text, retry with id + 1. -/
def create_formula_placeholder (ctx : ILCtx) (f : PdfFormula) (para : PdfParagraph) :
    Nat → Nat → Option Placeholder
  | 0, _ => none
  | fuel + 1, formula_id =>
    let ph := ctx.getFormularPlaceholder formula_id
    if inStr ph para.unicode then
      create_formula_placeholder ctx f para fuel (formula_id + 1)
    else
      some (.formula formula_id f ph)

/-- create_rich_text_placeholder: ask for a left and right token; if either
occurs verbatim in the paragraph text, retry with id + 1. -/
def create_rich_text_placeholder (ctx : ILCtx) (composition : PdfSameStyleCharacters)
    (para : PdfParagraph) : Nat → Nat → Option Placeholder
  | 0, _ => none
  | fuel + 1, composition_id =>
    let l := ctx.getRichTextLeftPlaceholder composition_id
    let r := ctx.getRichTextRightPlaceholder composition_id
    if inStr l para.unicode || inStr r para.unicode then
      create_rich_text_placeholder ctx composition para fuel (composition_id + 1)
    else
      some (.rich composition_id composition l r)

/- ---------------------------------------------------------------------
   get_translate_input (il_translator.py lines 390-515).
   --------------------------------------------------------------------- -/

/-- Outcome of the composition walk: the accumulated flat text and
placeholder list, the circuit breaker, or a failure (unknown composition
variant logged + None, or placeholder-fuel exhaustion in the model). -/
inductive BuildOutcome where
  | ok (chars : Str) (placeholders : List Placeholder)
  | breaker
  | fail
deriving DecidableEq

/-- Whether the run's style lets the placeholder be skipped: same style as
the paragraph base, same except size, or same except font with both fonts
mapping to the same target font. -/
def styleSuppressed (ctx : ILCtx) (fontMap : Nat → PdfFont) (para : PdfParagraph)
    (ssc : PdfSameStyleCharacters) : Bool :=
  ctx.isSameStyle ssc.pdf_style para.pdf_style ||
  ctx.isSameStyleExceptSize ssc.pdf_style para.pdf_style ||
  (ctx.isSameStyleExceptFont ssc.pdf_style para.pdf_style &&
    match ctx.fontMapperMap (fontMap ssc.pdf_style.font_id),
        ctx.fontMapperMap (fontMap para.pdf_style.font_id) with
    | some fonta, some fontb => fonta.font_id == fontb.font_id
    | _, _ => false)

/-- The composition walk of get_translate_input: accumulate a flat character
stream and the placeholder list; after every composition, if more than 40
placeholders have accumulated and rich text translation is not disabled,
abort with the circuit breaker. -/
def buildLoop (ctx : ILCtx) (para : PdfParagraph) (fontMap : Nat → PdfFont)
    (disable : Bool) :
    List PdfParagraphComposition → Nat → Str → List Placeholder → BuildOutcome
  | [], _, chars, ps => .ok chars ps
  | comp :: rest, placeholder_id, chars, ps =>
    match comp with
    | .pdf_line cs =>
      if 40 < ps.length && !disable then .breaker
      else buildLoop ctx para fontMap disable rest placeholder_id
        (chars ++ get_char_unicode_string cs) ps
    | .pdf_formula f =>
      match create_formula_placeholder ctx f para ctx.placeholderFuel placeholder_id with
      | none => .fail
      | some ph =>
        if 40 < (ps ++ [ph]).length && !disable then .breaker
        else buildLoop ctx para fontMap disable rest (ph.phId + 1)
          (chars ++ ph.tokenStr) (ps ++ [ph])
    | .pdf_character c =>
      if 40 < ps.length && !disable then .breaker
      else buildLoop ctx para fontMap disable rest placeholder_id
        (chars ++ c.char_unicode) ps
    | .pdf_same_style_characters ssc =>
      if disable then
        if 40 < ps.length && !disable then .breaker
        else buildLoop ctx para fontMap disable rest placeholder_id
          (chars ++ get_char_unicode_string ssc.pdf_character) ps
      else if styleSuppressed ctx fontMap para ssc then
        if 40 < ps.length && !disable then .breaker
        else buildLoop ctx para fontMap disable rest placeholder_id
          (chars ++ get_char_unicode_string ssc.pdf_character) ps
      else
        match create_rich_text_placeholder ctx ssc para ctx.placeholderFuel placeholder_id with
        | none => .fail
        | some ph =>
          if 40 < (ps ++ [ph]).length && !disable then .breaker
          else buildLoop ctx para fontMap disable rest (ph.phId + 2)
            (chars ++ ph.leftStr ++ get_char_unicode_string ssc.pdf_character ++ ph.rightStr)
            (ps ++ [ph])
    | .pdf_same_style_unicode_characters _ => .fail

/-- get_translate_input.  Zero compositions: nothing.  Exactly one: plain
line / same-style-characters / character compositions pass through verbatim
with no placeholders; a lone formula or pre-translated-unicode composition
needs no translation; otherwise walk the compositions, and on the circuit
breaker rebuild the whole input with rich text translation forced off. -/
def get_translate_input (ctx : ILCtx) (para : PdfParagraph) (fontMap : Nat → PdfFont)
    (disableArg : Option Bool) : Option TranslateInput :=
  match para.pdf_paragraph_composition with
  | [] => none
  | [comp] =>
    match comp with
    | .pdf_line _ => some ⟨para.unicode, [], para.pdf_style⟩
    | .pdf_same_style_characters _ => some ⟨para.unicode, [], para.pdf_style⟩
    | .pdf_character _ => some ⟨para.unicode, [], para.pdf_style⟩
    | .pdf_formula _ => none
    | .pdf_same_style_unicode_characters _ => none
  | _ :: _ :: _ =>
    let disable := disableArg.getD ctx.disable_rich_text_translate
    match buildLoop ctx para fontMap disable para.pdf_paragraph_composition 1 [] [] with
    | .ok chars ps => some ⟨chars, ps, para.pdf_style⟩
    | .fail => none
    | .breaker =>
      match buildLoop ctx para fontMap true para.pdf_paragraph_composition 1 [] [] with
      | .ok chars ps => some ⟨chars, ps, para.pdf_style⟩
      | _ => none

/- ---------------------------------------------------------------------
   Trackers (write-once diagnostic state), pipeline pre / post, the paragraph
   task, and the page-level submission.
   --------------------------------------------------------------------- -/

structure LLMTracker where
  input : Str
  output : Str
  has_error : Bool
  error_message : Str
  placeholder_full_match : Bool
  fallback_to_translate : Bool
deriving DecidableEq

def LLMTracker.fresh : LLMTracker := ⟨[], [], false, [], false, false⟩

structure ParagraphTracker where
  pdf_unicode : Option Str
  input : Option Str
  output : Option Str
  attempts : List LLMTracker
deriving DecidableEq

/-- tracker.last_llm_translate_tracker().set_placeholder_full_match(): a
no-op when there is no attempt (the walrus test fails on None). -/
def setLastFullMatch (tr : ParagraphTracker) : ParagraphTracker :=
  match tr.attempts.getLast? with
  | none => tr
  | some last =>
    { tr with attempts := tr.attempts.dropLast ++ [{ last with placeholder_full_match := true }] }

def setLastInput (tr : ParagraphTracker) (s : Str) : ParagraphTracker :=
  match tr.attempts.getLast? with
  | none => tr
  | some last => { tr with attempts := tr.attempts.dropLast ++ [{ last with input := s }] }

def setLastOutput (tr : ParagraphTracker) (s : Str) : ParagraphTracker :=
  match tr.attempts.getLast? with
  | none => tr
  | some last => { tr with attempts := tr.attempts.dropLast ++ [{ last with output := s }] }

/-- pre_translate_paragraph: skip vertical paragraphs, resolve the font map
(xobject-local map wins when present), force rich text off for non-LLM
backends, build the translate input, and skip when nothing was built or the
text is below the configured minimum length. -/
def pre_translate_paragraph (ctx : ILCtx) (para : PdfParagraph) (tracker : ParagraphTracker)
    (pageFontMap : Nat → PdfFont) (xobjFontMap : Nat → Option (Nat → PdfFont)) :
    Option (Str × TranslateInput) × ParagraphTracker :=
  if para.vertical then (none, tracker)
  else
    let tracker := { tracker with pdf_unicode := some para.unicode }
    let fontMap :=
      match para.xobj_id with
      | some x => (xobjFontMap x).getD pageFontMap
      | none => pageFontMap
    let disable :=
      if ctx.support_llm_translate then ctx.disable_rich_text_translate else true
    match get_translate_input ctx para fontMap (some disable) with
    | none => (none, tracker)
    | some ti =>
      let tracker := { tracker with input := some ti.unicode }
      if ti.unicode.length < ctx.min_text_length then (none, tracker)
      else (some (ti.unicode, ti), tracker)

/-- Fill a missing style on a freshly created pre-translated-unicode
composition with the paragraph base style (post_translate_paragraph's
backfill loop). -/
def backfillStyle (base : PdfStyle) :
    PdfParagraphComposition → PdfParagraphComposition
  | .pdf_same_style_unicode_characters u =>
    match u.pdf_style with
    | none => .pdf_same_style_unicode_characters ⟨u.unicode, some base⟩
    | some _ => .pdf_same_style_unicode_characters u
  | c => c

/-- State after post_translate_paragraph: the (possibly partially mutated)
paragraph, the tracker, the exception escaping the call if any, whether the
reparser was invoked, and the boolean the function returns. -/
structure PostOutcome where
  para : PdfParagraph
  tracker : ParagraphTracker
  raised : Option PyErr
  invokedReparse : Bool
  changed : Bool
deriving DecidableEq

/-- post_translate_paragraph: record the output; if the translated text is
identical to the input text, mark the attempt a full match and return False
leaving the paragraph untouched.  Otherwise assign paragraph.unicode, then
reparse (which may raise after that assignment), then replace the
composition list and backfill missing styles. -/
def post_translate_paragraph (para : PdfParagraph) (tracker : ParagraphTracker)
    (translate_input : TranslateInput) (translated_text : Str) : PostOutcome :=
  let tracker := { tracker with output := some translated_text }
  if translated_text == translate_input.unicode then
    ⟨para, setLastFullMatch tracker, none, false, false⟩
  else
    let para1 := { para with unicode := translated_text }
    let po := parse_translate_output translate_input translated_text
    let tracker := if po.fullMatch then setLastFullMatch tracker else tracker
    match po.result with
    | .error e => ⟨para1, tracker, some e, true, false⟩
    | .ok comps =>
      ⟨{ para1 with
          pdf_paragraph_composition := comps.map (backfillStyle para1.pdf_style) },
        tracker, none, true, true⟩

/-- Normalisation between translation and post-processing:
re.sub(r"[. 。…，]{20,}", ".", text). -/
def repeatClass (c : Char) : Bool :=
  c == '.' || c == ' ' || c == '。' || c == '…' || c == '，'

def pyCollapseRepeatsF : Nat → Str → Str
  | 0, s => s
  | fuel + 1, s =>
    match s with
    | [] => []
    | c :: rest =>
      if repeatClass c then
        let run := List.takeWhile repeatClass (c :: rest)
        let rest2 := List.dropWhile repeatClass (c :: rest)
        if 20 ≤ run.length then '.' :: pyCollapseRepeatsF fuel rest2
        else run ++ pyCollapseRepeatsF fuel rest2
      else c :: pyCollapseRepeatsF fuel rest

def pyCollapseRepeats (s : Str) : Str := pyCollapseRepeatsF (s.length + 1) s

/-- Observable outcome of one paragraph task: the paragraph and tracker
state when the task finishes, the exception caught at the task boundary if
one was raised, and whether the reparser ran. -/
structure TaskOutcome where
  para : PdfParagraph
  tracker : ParagraphTracker
  caught : Option PyErr
  invokedReparse : Bool
deriving DecidableEq

/-- translate_paragraph: pre-process, create the attempt tracker, call the
backend (LLM prompt path or plain path), normalise, post-process.  Any
exception from the translate / normalise / post steps is caught at this
boundary (the except block) and the task returns with whatever state the
objects were left in. -/
def translate_paragraph (ctx : ILCtx) (para : PdfParagraph) (tracker : ParagraphTracker)
    (pageFontMap : Nat → PdfFont) (xobjFontMap : Nat → Option (Nat → PdfFont)) :
    TaskOutcome :=
  match pre_translate_paragraph ctx para tracker pageFontMap xobjFontMap with
  | (none, tr1) => ⟨para, tr1, none, false⟩
  | (some (text, ti), tr1) =>
    let tr2 := { tr1 with attempts := tr1.attempts ++ [LLMTracker.fresh] }
    if ctx.support_llm_translate then
      let prompt := ctx.promptOf text
      let tr3 := setLastInput tr2 prompt
      match ctx.engine prompt with
      | .error e => ⟨para, tr3, some e, false⟩
      | .ok raw =>
        let tr4 := setLastOutput tr3 raw
        let po := post_translate_paragraph para tr4 ti (pyCollapseRepeats raw)
        ⟨po.para, po.tracker, po.raised, po.invokedReparse⟩
    else
      match ctx.engine text with
      | .error e => ⟨para, tr2, some e, false⟩
      | .ok raw =>
        let po := post_translate_paragraph para tr2 ti (pyCollapseRepeats raw)
        ⟨po.para, po.tracker, po.raised, po.invokedReparse⟩

/-- calc_token_count: length of the tokenizer encoding; any failure
degrades to zero. -/
def calc_token_count (ctx : ILCtx) (text : Str) : Nat :=
  match ctx.tokenizerEncode text with
  | .ok toks => toks.length
  | .error _ => 0

/-- One executor.submit call of process_page: the task priority is the large
constant minus the estimated token count. -/
structure Submission where
  para : PdfParagraph
  priority : Int
  paragraph_token_count : Nat
deriving DecidableEq

/-- process_page's submission loop (the per-paragraph font-map snapshots and
the title-context update do not affect the submitted priorities and are
elided). -/
def process_page (ctx : ILCtx) (paragraphs : List PdfParagraph) : List Submission :=
  paragraphs.map (fun p =>
    let paragraph_token_count := calc_token_count ctx p.unicode
    ⟨p, (1048576 : Int) - paragraph_token_count, paragraph_token_count⟩)


/- ---------------------------------------------------------------------
   Scanner lemmas: every match the alternation finds lies inside the
   scanned text, and the segments of a scan concatenate back to it.
   --------------------------------------------------------------------- -/

theorem startsWithCI_length {p s : Str} (h : startsWithCI p s = true) :
    p.length ≤ s.length := by
  induction p generalizing s with
  | nil => simp
  | cons a as ih =>
    cases s with
    | nil => simp [startsWithCI] at h
    | cons b bs =>
      simp only [startsWithCI, Bool.and_eq_true] at h
      simpa using Nat.succ_le_succ (ih h.2)

theorem findRight_bound {r : Str} :
    ∀ {s : Str} {m : Nat}, findRight r s = some m → m + r.length ≤ s.length := by
  intro s
  induction s with
  | nil =>
    intro m h
    simp only [findRight] at h
    split at h
    · rename_i hs
      have h1 := startsWithCI_length hs
      cases h
      omega
    · cases h
  | cons c rest ih =>
    intro m h
    simp only [findRight] at h
    split at h
    · rename_i hs
      have h1 := startsWithCI_length hs
      cases h
      omega
    · split at h
      · cases h
      · cases hr : findRight r rest with
        | none => rw [hr] at h; cases h
        | some m2 =>
          rw [hr] at h
          simp only [Option.map_some', Option.some.injEq] at h
          have h1 := ih hr
          subst h
          simp only [List.length_cons]
          omega

theorem altMatchLen_bound {a : PlAlt} {s : Str} {len : Nat}
    (h : altMatchLen a s = some len) : len ≤ s.length := by
  cases a with
  | lit tok =>
    simp only [altMatchLen] at h
    split at h
    · rename_i hs
      have h1 := startsWithCI_length hs
      cases h
      exact h1
    · cases h
  | wrap l r =>
    simp only [altMatchLen] at h
    split at h
    · rename_i hs
      cases hr : findRight r (s.drop l.length) with
      | none => rw [hr] at h; cases h
      | some m =>
        rw [hr] at h
        simp only [Option.map_some', Option.some.injEq] at h
        have h1 := startsWithCI_length hs
        have h2 := findRight_bound hr
        rw [List.length_drop] at h2
        subst h
        omega
    · cases h

theorem firstAltLen_bound {s : Str} {len : Nat} :
    ∀ {alts : List PlAlt}, firstAltLen alts s = some len → len ≤ s.length := by
  intro alts
  induction alts with
  | nil => intro h; cases h
  | cons a as ih =>
    intro h
    simp only [firstAltLen] at h
    cases ha : altMatchLen a s with
    | none => rw [ha] at h; exact ih h
    | some l2 =>
      rw [ha] at h
      cases h
      exact altMatchLen_bound ha

theorem findMatch_bound {alts : List PlAlt} :
    ∀ {s : Str} {j len : Nat}, findMatch alts s = some (j, len) → j + len ≤ s.length := by
  intro s
  induction s with
  | nil =>
    intro j len h
    simp only [findMatch] at h
    cases hf : firstAltLen alts [] with
    | none => rw [hf] at h; cases h
    | some l2 =>
      rw [hf] at h
      simp only [Option.some.injEq, Prod.mk.injEq] at h
      obtain ⟨hj, hl⟩ := h
      subst hj
      subst hl
      simpa using firstAltLen_bound hf
  | cons c rest ih =>
    intro j len h
    simp only [findMatch] at h
    cases hf : firstAltLen alts (c :: rest) with
    | none =>
      rw [hf] at h
      cases hm : findMatch alts rest with
      | none => rw [hm] at h; cases h
      | some p =>
        obtain ⟨j2, len2⟩ := p
        rw [hm] at h
        simp only [Option.map_some', Option.some.injEq, Prod.mk.injEq] at h
        obtain ⟨hj, hl⟩ := h
        subst hj
        subst hl
        have h1 := ih hm
        simp only [List.length_cons]
        omega
    | some l2 =>
      rw [hf] at h
      simp only [Option.some.injEq, Prod.mk.injEq] at h
      obtain ⟨hj, hl⟩ := h
      subst hj
      subst hl
      have h1 := firstAltLen_bound hf
      omega

theorem scanSegsF_src_join (alts : List PlAlt) :
    ∀ (fuel : Nat) (t : Str) (d : Nat),
      2 * t.length + (if d = 0 then 1 else 0) < fuel → d ≤ 1 →
      ((scanSegsF alts fuel t d).map Seg.src).flatten = t := by
  intro fuel
  induction fuel with
  | zero =>
    intro t d h _
    by_cases hd0 : d = 0
    · rw [if_pos hd0] at h; omega
    · rw [if_neg hd0] at h; omega
  | succ fuel ih =>
    intro t d h hd
    by_cases hlt : t.length < d
    · have ht : t = [] := List.length_eq_zero.mp (by omega)
      subst ht
      simp only [scanSegsF, if_pos hlt, List.map_nil, List.flatten_nil]
    · cases hm : findMatch alts (t.drop d) with
      | none =>
        simp only [scanSegsF, if_neg hlt, hm]
        by_cases hte : t.isEmpty
        · have ht : t = [] := by simpa [List.isEmpty_iff] using hte
          rw [if_pos hte]
          simp [ht]
        · rw [if_neg hte]
          simp [Seg.src]
      | some jl =>
        obtain ⟨j, len⟩ := jl
        have hb := findMatch_bound hm
        rw [List.length_drop] at hb
        have hdl : d ≤ t.length := Nat.le_of_not_lt hlt
        have hsplit : t.drop (d + j + len) = (t.drop (d + j)).drop len := by
          rw [List.drop_drop]
        have h2 : 2 * t.length + (if d = 0 then 1 else 0) ≤ fuel := by omega
        have hrec : ((scanSegsF alts fuel (t.drop (d + j + len))
            (if len = 0 then 1 else 0)).map Seg.src).flatten = t.drop (d + j + len) := by
          apply ih
          · rw [List.length_drop]
            by_cases hl0 : len = 0
            · rw [if_pos hl0, if_neg (by omega : ¬(1 : Nat) = 0)]
              by_cases hd0 : d = 0
              · rw [if_pos hd0] at h2; omega
              · rw [if_neg hd0] at h2; omega
            · rw [if_neg hl0, if_pos rfl]
              by_cases hd0 : d = 0
              · rw [if_pos hd0] at h2; omega
              · rw [if_neg hd0] at h2; omega
          · by_cases hl0 : len = 0 <;> simp [hl0]
        have halg : t.take (d + j) ++ ((t.drop (d + j)).take len ++ t.drop (d + j + len)) = t := by
          rw [hsplit, List.take_append_drop, List.take_append_drop]
        simp only [scanSegsF, if_neg hlt, hm]
        by_cases hge : (t.take (d + j)).isEmpty
        · have hnil : t.take (d + j) = [] := by simpa [List.isEmpty_iff] using hge
          rw [if_pos hge]
          simp only [List.nil_append, List.map_cons, List.flatten_cons, Seg.src, hrec]
          rw [hnil, List.nil_append] at halg
          exact halg
        · rw [if_neg hge]
          simp only [List.cons_append, List.nil_append, List.map_cons, List.flatten_cons,
            Seg.src, hrec]
          exact halg

theorem scanSegs_src_join (alts : List PlAlt) (t : Str) (d : Nat) (hd : d ≤ 1) :
    ((scanSegs alts t d).map Seg.src).flatten = t := by
  apply scanSegsF_src_join
  · by_cases hd0 : d = 0
    · rw [if_pos hd0]; omega
    · rw [if_neg hd0]; omega
  · exact hd

/- ---------------------------------------------------------------------
   Reparser helpers: rendering is positional, and a successful render
   pairs the k-th segment with the k-th emitted composition.
   --------------------------------------------------------------------- -/

theorem renderAll_get {ps : List Placeholder} {base : PdfStyle} :
    ∀ {segs : List Seg} {comps : List PdfParagraphComposition},
      renderAll ps base segs = .ok comps →
      ∀ {k : Nat} {s : Seg}, segs[k]? = some s →
        ∃ c, renderSeg ps base s = .ok c ∧ comps[k]? = some c := by
  intro segs
  induction segs with
  | nil =>
    intro comps h k s hk
    simp at hk
  | cons x xs ih =>
    intro comps h k s hk
    simp only [renderAll] at h
    cases hr : renderSeg ps base x with
    | error e => rw [hr] at h; cases h
    | ok c =>
      rw [hr] at h
      cases ha : renderAll ps base xs with
      | error e => rw [ha] at h; cases h
      | ok cs =>
        rw [ha] at h
        cases h
        cases k with
        | zero =>
          simp only [List.getElem?_cons_zero, Option.some.injEq] at hk
          subst hk
          exact ⟨c, hr, by simp⟩
        | succ k2 =>
          simp only [List.getElem?_cons_succ] at hk
          simpa only [List.getElem?_cons_succ] using ih ha hk

/- ---------------------------------------------------------------------
   Placeholder factory helpers.
   --------------------------------------------------------------------- -/

theorem create_formula_placeholder_isFormula (ctx : ILCtx) (f : PdfFormula)
    (para : PdfParagraph) :
    ∀ (fuel pid : Nat) (ph : Placeholder),
      create_formula_placeholder ctx f para fuel pid = some ph →
      ph.isFormulaPh = true := by
  intro fuel
  induction fuel with
  | zero => intro pid ph h; cases h
  | succ fuel ih =>
    intro pid ph h
    simp only [create_formula_placeholder] at h
    split at h
    · exact ih (pid + 1) ph h
    · cases h
      rfl

/- ---------------------------------------------------------------------
   Translate-input builder helpers: with rich text translation disabled
   the walk can only accumulate formula placeholders.
   --------------------------------------------------------------------- -/

theorem buildLoop_true_formula (ctx : ILCtx) (para : PdfParagraph)
    (fontMap : Nat → PdfFont) :
    ∀ (comps : List PdfParagraphComposition) (pid : Nat) (chars : Str)
      (ps : List Placeholder) (chars2 : Str) (ps2 : List Placeholder),
      (∀ p ∈ ps, p.isFormulaPh = true) →
      buildLoop ctx para fontMap true comps pid chars ps = .ok chars2 ps2 →
      ∀ p ∈ ps2, p.isFormulaPh = true := by
  intro comps
  induction comps with
  | nil =>
    intro pid chars ps chars2 ps2 hps h
    simp only [buildLoop] at h
    cases h
    exact hps
  | cons c rest ih =>
    intro pid chars ps chars2 ps2 hps h
    cases c with
    | pdf_line cs =>
      simp only [buildLoop, Bool.not_true, Bool.and_false, Bool.false_eq_true,
        if_false] at h
      exact ih _ _ _ _ _ hps h
    | pdf_formula f =>
      simp only [buildLoop] at h
      cases hc : create_formula_placeholder ctx f para ctx.placeholderFuel pid with
      | none => rw [hc] at h; cases h
      | some ph =>
        rw [hc] at h
        simp only [Bool.not_true, Bool.and_false, Bool.false_eq_true, if_false] at h
        refine ih _ _ _ _ _ ?_ h
        intro p hp
        rcases List.mem_append.mp hp with hp2 | hp2
        · exact hps p hp2
        · rcases List.mem_singleton.mp hp2 with rfl
          exact create_formula_placeholder_isFormula ctx f para _ _ _ hc
    | pdf_character ch =>
      simp only [buildLoop, Bool.not_true, Bool.and_false, Bool.false_eq_true,
        if_false] at h
      exact ih _ _ _ _ _ hps h
    | pdf_same_style_characters ssc =>
      simp only [buildLoop, Bool.not_true, Bool.and_false, Bool.false_eq_true,
        if_false, if_true] at h
      exact ih _ _ _ _ _ hps h
    | pdf_same_style_unicode_characters u =>
      simp only [buildLoop] at h
      cases h

theorem get_translate_input_true_formula (ctx : ILCtx) (para : PdfParagraph)
    (fontMap : Nat → PdfFont) (ti : TranslateInput)
    (h : get_translate_input ctx para fontMap (some true) = some ti) :
    ∀ p ∈ ti.placeholders, p.isFormulaPh = true := by
  unfold get_translate_input at h
  rcases hcs : para.pdf_paragraph_composition with _ | ⟨c, _ | ⟨c2, rest2⟩⟩
  · simp only [hcs] at h
    cases h
  · simp only [hcs] at h
    cases c with
    | pdf_line cs2 =>
      simp only [Option.some.injEq] at h
      subst h
      simp
    | pdf_formula f => simp at h
    | pdf_character ch =>
      simp only [Option.some.injEq] at h
      subst h
      simp
    | pdf_same_style_characters ssc =>
      simp only [Option.some.injEq] at h
      subst h
      simp
    | pdf_same_style_unicode_characters u => simp at h
  · simp only [hcs, Option.getD_some] at h
    cases hb : buildLoop ctx para fontMap true (c :: c2 :: rest2) 1 [] [] with
    | ok chars ps =>
      rw [hb] at h
      simp only [Option.some.injEq] at h
      subst h
      exact buildLoop_true_formula ctx para fontMap _ _ _ _ _ _
        (by intro p hp; cases hp) hb
    | breaker =>
      rw [hb] at h
      simp at h
    | fail =>
      rw [hb] at h
      simp at h

/- ---------------------------------------------------------------------
   Post-processing helpers.
   --------------------------------------------------------------------- -/

theorem post_raised_para (para : PdfParagraph) (tracker : ParagraphTracker)
    (ti : TranslateInput) (t : Str)
    (h : (post_translate_paragraph para tracker ti t).raised.isSome = true) :
    (post_translate_paragraph para tracker ti t).para = { para with unicode := t } := by
  unfold post_translate_paragraph at h ⊢
  by_cases heq : (t == ti.unicode) = true
  · simp [heq] at h
  · have heq2 : (t == ti.unicode) = false := by simpa using heq
    simp only [heq2, Bool.false_eq_true, if_false] at h ⊢
    cases hp : (parse_translate_output ti t).result with
    | error e => simp [hp]
    | ok comps => simp [hp] at h

theorem post_noreparse_para (para : PdfParagraph) (tracker : ParagraphTracker)
    (ti : TranslateInput) (t : Str)
    (h : (post_translate_paragraph para tracker ti t).invokedReparse = false) :
    (post_translate_paragraph para tracker ti t).para = para := by
  unfold post_translate_paragraph at h ⊢
  by_cases heq : (t == ti.unicode) = true
  · simp [heq]
  · have heq2 : (t == ti.unicode) = false := by simpa using heq
    simp only [heq2, Bool.false_eq_true, if_false] at h ⊢
    cases hp : (parse_translate_output ti t).result with
    | error e => simp [hp] at h
    | ok comps => simp [hp] at h

theorem post_comps_unchanged_of_raised (para : PdfParagraph) (tracker : ParagraphTracker)
    (ti : TranslateInput) (t : Str)
    (h : (post_translate_paragraph para tracker ti t).raised.isSome = true) :
    (post_translate_paragraph para tracker ti t).para.pdf_paragraph_composition =
      para.pdf_paragraph_composition := by
  rw [post_raised_para para tracker ti t h]

/-- The two shapes a finished paragraph task can have: either the task
returned before post-processing (paragraph untouched, reparser not run), or
its whole outcome is that of some post_translate_paragraph call on the
original paragraph. -/
theorem translate_paragraph_cases (ctx : ILCtx) (para : PdfParagraph)
    (tr : ParagraphTracker) (pfm : Nat → PdfFont) (xfm : Nat → Option (Nat → PdfFont)) :
    ((translate_paragraph ctx para tr pfm xfm).para = para ∧
      (translate_paragraph ctx para tr pfm xfm).invokedReparse = false) ∨
    (∃ tr2 ti t, translate_paragraph ctx para tr pfm xfm =
      ⟨(post_translate_paragraph para tr2 ti t).para,
        (post_translate_paragraph para tr2 ti t).tracker,
        (post_translate_paragraph para tr2 ti t).raised,
        (post_translate_paragraph para tr2 ti t).invokedReparse⟩) := by
  unfold translate_paragraph
  cases hpre : pre_translate_paragraph ctx para tr pfm xfm with
  | mk opt tr1 =>
    cases opt with
    | none => exact Or.inl ⟨rfl, rfl⟩
    | some pair =>
      obtain ⟨text, ti⟩ := pair
      by_cases hsl : ctx.support_llm_translate = true
      · simp only [hsl, if_true]
        cases heng : ctx.engine (ctx.promptOf text) with
        | error e => exact Or.inl ⟨rfl, rfl⟩
        | ok raw => exact Or.inr ⟨_, _, _, rfl⟩
      · have hsl2 : ctx.support_llm_translate = false := by simpa using hsl
        simp only [hsl2, Bool.false_eq_true, if_false]
        cases heng : ctx.engine text with
        | error e => exact Or.inl ⟨rfl, rfl⟩
        | ok raw => exact Or.inr ⟨_, _, _, rfl⟩

/-- C2 (amended): any exception during the translate / normalise /
post-processing steps is caught at the paragraph-task boundary and does not
propagate (translate_paragraph always returns, recording the caught
exception); a failed attempt never changes the paragraph's composition list
and can only have touched its unicode field; and when the failure happened
before the reparser ran, the paragraph is fully unchanged.  The original
claim — that the paragraph is always left in its pre-translation state — is
refuted by translate_paragraph_counterexample: a reparser exception is
raised after paragraph.unicode has already been assigned. -/
theorem translate_paragraph_exception_isolation (ctx : ILCtx) (para : PdfParagraph)
    (tr : ParagraphTracker) (pfm : Nat → PdfFont) (xfm : Nat → Option (Nat → PdfFont))
    (h : (translate_paragraph ctx para tr pfm xfm).caught.isSome = true) :
    (translate_paragraph ctx para tr pfm xfm).para.pdf_paragraph_composition =
      para.pdf_paragraph_composition ∧
    (∃ u, (translate_paragraph ctx para tr pfm xfm).para = { para with unicode := u }) ∧
    ((translate_paragraph ctx para tr pfm xfm).invokedReparse = false →
      (translate_paragraph ctx para tr pfm xfm).para = para) := by
  rcases translate_paragraph_cases ctx para tr pfm xfm with ⟨hp, _⟩ | ⟨tr2, ti, t, heq⟩
  · exact ⟨by rw [hp], ⟨para.unicode, by rw [hp]⟩, fun _ => hp⟩
  · rw [heq] at h ⊢
    exact ⟨post_comps_unchanged_of_raised _ _ _ _ h,
      ⟨t, post_raised_para _ _ _ _ h⟩,
      fun hir => post_noreparse_para _ _ _ _ hir⟩

theorem setLastFullMatch_getLast (tr : ParagraphTracker) (ha : tr.attempts ≠ []) :
    (setLastFullMatch tr).attempts.getLast?.map LLMTracker.placeholder_full_match =
      some true := by
  unfold setLastFullMatch
  cases hl : tr.attempts.getLast? with
  | none => exact absurd (List.getLast?_eq_none_iff.mp hl) ha
  | some last =>
    simp only [hl]
    simp [List.getLast?_concat]

/-- C6: when the translated text is byte-identical to the translate input's
text, post_translate_paragraph marks the attempt tracker as a full
placeholder match and leaves the paragraph structurally unmodified — same
unicode, same composition list — without invoking the reparser, raising
nothing and returning False. -/
theorem post_translate_identity_frame (para : PdfParagraph) (tracker : ParagraphTracker)
    (ti : TranslateInput) (t : Str)
    (hid : t = ti.unicode) (ha : tracker.attempts ≠ []) :
    (post_translate_paragraph para tracker ti t).para = para ∧
    (post_translate_paragraph para tracker ti t).invokedReparse = false ∧
    (post_translate_paragraph para tracker ti t).raised = none ∧
    ((post_translate_paragraph para tracker ti t).tracker.attempts.getLast?.map
      LLMTracker.placeholder_full_match) = some true ∧
    (post_translate_paragraph para tracker ti t).changed = false := by
  subst hid
  have hpost : post_translate_paragraph para tracker ti ti.unicode =
      ⟨para, setLastFullMatch { tracker with output := some ti.unicode },
        none, false, false⟩ := by
    unfold post_translate_paragraph
    simp [beq_self_eq_true]
  rw [hpost]
  exact ⟨rfl, rfl, rfl, setLastFullMatch_getLast _ ha, rfl⟩

/-- C7: for a translate input whose placeholder list is empty,
parse_translate_output returns exactly one composition — a
pre-translated-unicode composition whose unicode is the whole output text
with the input's base style — and records the attempt as a full placeholder
match. -/
theorem parse_translate_output_no_placeholders (ti : TranslateInput) (output : Str)
    (h : ti.placeholders = []) :
    parse_translate_output ti output =
      ⟨.ok [.pdf_same_style_unicode_characters ⟨output, some ti.base_style⟩], true⟩ := by
  unfold parse_translate_output
  simp [h]

theorem parse_translate_output_renderAll (ti : TranslateInput) (output : Str)
    (comps : List PdfParagraphComposition)
    (hne : ti.placeholders ≠ [])
    (hok : (parse_translate_output ti output).result = .ok comps) :
    renderAll ti.placeholders ti.base_style
      (scanSegs (captureAlts ti.placeholders) output 0) = .ok comps := by
  unfold parse_translate_output at hok
  rw [if_neg (by simpa [List.isEmpty_iff] using hne)] at hok
  exact hok

/-- C1: for every translate input with a non-empty placeholder list and every
translated text, when parse_translate_output returns a composition list, the
finditer segments it renders partition the translated text exactly — their
sources concatenate back to the whole text with no gaps and no overlaps, each
segment yields exactly one emitted composition in order, and every plain-text
(gap) composition carries the segment text with all stray placeholder tokens
stripped. -/
theorem parse_translate_output_full_coverage (ti : TranslateInput) (output : Str)
    (comps : List PdfParagraphComposition)
    (hne : ti.placeholders ≠ [])
    (hok : (parse_translate_output ti output).result = .ok comps) :
    ((scanSegs (captureAlts ti.placeholders) output 0).map Seg.src).flatten = output ∧
    renderAll ti.placeholders ti.base_style
      (scanSegs (captureAlts ti.placeholders) output 0) = .ok comps ∧
    ∀ g, Seg.gap g ∈ scanSegs (captureAlts ti.placeholders) output 0 →
      renderSeg ti.placeholders ti.base_style (Seg.gap g) =
        .ok (.pdf_same_style_unicode_characters
          ⟨removePlaceholder ti.placeholders g, some ti.base_style⟩) := by
  refine ⟨scanSegs_src_join _ _ _ (by omega),
    parse_translate_output_renderAll ti output comps hne hok, ?_⟩
  intro g _
  rfl

/-- C5: for a rich-text placeholder match in the reparser, if the captured
inner text equals the original run's characters after removing all spaces
from both, the emitted composition wraps the original PdfSameStyleCharacters
value itself; otherwise a fresh pre-translated-unicode composition is
emitted, carrying the delimiter-stripped inner text (run through the stray
placeholder-token stripper, as the code does) with the original run's
style. -/
theorem parse_translate_output_style_identity (ti : TranslateInput) (output : Str)
    (comps : List PdfParagraphComposition) (k : Nat) (s : Str) (idp : Nat)
    (run : PdfSameStyleCharacters) (l r inner : Str)
    (hne : ti.placeholders ≠ [])
    (hok : (parse_translate_output ti output).result = .ok comps)
    (hseg : (scanSegs (captureAlts ti.placeholders) output 0)[k]? = some (Seg.hit s))
    (hnf : findFormulaExact ti.placeholders s = none)
    (hrf : findRichByLeft ti.placeholders s = some (.rich idp run l r))
    (hin : pyAnchorInner l r s = some inner) :
    comps[k]? = some
      (if removeSpaces inner == removeSpaces (get_char_unicode_string run.pdf_character)
        then PdfParagraphComposition.pdf_same_style_characters run
        else PdfParagraphComposition.pdf_same_style_unicode_characters
          ⟨removePlaceholder ti.placeholders inner, some run.pdf_style⟩) := by
  have hra := parse_translate_output_renderAll ti output comps hne hok
  obtain ⟨c, hcr, hck⟩ := renderAll_get hra hseg
  unfold renderSeg at hcr
  simp only [hnf, hrf, hin] at hcr
  by_cases hsp : (removeSpaces inner ==
      removeSpaces (get_char_unicode_string run.pdf_character)) = true
  · rw [if_pos hsp] at hcr
    rw [if_pos hsp]
    cases hcr
    exact hck
  · rw [if_neg hsp] at hcr
    rw [if_neg hsp]
    cases hcr
    exact hck

/-- C8 (amended): a paragraph with zero compositions yields nothing; with
exactly one composition, a line, character or same-style-characters
composition passes through verbatim as a TranslateInput with the paragraph's
unicode, no placeholders and the paragraph's base style, while a lone
formula composition or a lone pre-translated-unicode composition yields
nothing.  The original claim said only character/line compositions pass
through and every other lone variant yields nothing after an error: it is
refuted by get_translate_input_small_cases_counterexample — a lone
same-style-characters composition passes through, it does not yield
nothing.  (The source's unknown-variant error branch is unreachable for the
closed composition type.) -/
theorem get_translate_input_small_cases (ctx : ILCtx) (para : PdfParagraph)
    (fontMap : Nat → PdfFont) (disableArg : Option Bool) :
    (para.pdf_paragraph_composition = [] →
      get_translate_input ctx para fontMap disableArg = none) ∧
    (∀ cs, para.pdf_paragraph_composition = [.pdf_line cs] →
      get_translate_input ctx para fontMap disableArg =
        some ⟨para.unicode, [], para.pdf_style⟩) ∧
    (∀ c, para.pdf_paragraph_composition = [.pdf_character c] →
      get_translate_input ctx para fontMap disableArg =
        some ⟨para.unicode, [], para.pdf_style⟩) ∧
    (∀ ssc, para.pdf_paragraph_composition = [.pdf_same_style_characters ssc] →
      get_translate_input ctx para fontMap disableArg =
        some ⟨para.unicode, [], para.pdf_style⟩) ∧
    (∀ f, para.pdf_paragraph_composition = [.pdf_formula f] →
      get_translate_input ctx para fontMap disableArg = none) ∧
    (∀ u, para.pdf_paragraph_composition = [.pdf_same_style_unicode_characters u] →
      get_translate_input ctx para fontMap disableArg = none) := by
  refine ⟨?_, ?_, ?_, ?_, ?_, ?_⟩
  · intro h
    unfold get_translate_input
    rw [h]
  · intro cs h
    unfold get_translate_input
    rw [h]
  · intro c h
    unfold get_translate_input
    rw [h]
  · intro ssc h
    unfold get_translate_input
    rw [h]
  · intro f h
    unfold get_translate_input
    rw [h]
  · intro u h
    unfold get_translate_input
    rw [h]

/-- C4: when the composition walk accumulates more than 40 placeholders while
rich-text translation is not disabled (the walk aborts with the circuit
breaker), get_translate_input rebuilds the whole input with rich text forced
off, so the TranslateInput it finally returns contains no rich-text
placeholders — only formula placeholders. -/
theorem get_translate_input_circuit_breaker (ctx : ILCtx) (para : PdfParagraph)
    (fontMap : Nat → PdfFont) (disableArg : Option Bool) (ti : TranslateInput)
    (hd : disableArg.getD ctx.disable_rich_text_translate = false)
    (hb : buildLoop ctx para fontMap false para.pdf_paragraph_composition 1 [] [] =
      .breaker)
    (hti : get_translate_input ctx para fontMap disableArg = some ti) :
    ∀ p ∈ ti.placeholders, p.isFormulaPh = true := by
  unfold get_translate_input at hti
  rcases hcs : para.pdf_paragraph_composition with _ | ⟨c, _ | ⟨c2, rest2⟩⟩
  · simp only [hcs] at hti
    cases hti
  · simp only [hcs] at hti
    cases c with
    | pdf_line cs2 =>
      simp only [Option.some.injEq] at hti
      subst hti
      simp
    | pdf_formula f => simp at hti
    | pdf_character ch =>
      simp only [Option.some.injEq] at hti
      subst hti
      simp
    | pdf_same_style_characters ssc =>
      simp only [Option.some.injEq] at hti
      subst hti
      simp
    | pdf_same_style_unicode_characters u => simp at hti
  · simp only [hcs] at hti
    rw [hd] at hti
    rw [hcs] at hb
    rw [hb] at hti
    cases hb2 : buildLoop ctx para fontMap true (c :: c2 :: rest2) 1 [] [] with
    | ok chars ps =>
      rw [hb2] at hti
      simp only [Option.some.injEq] at hti
      subst hti
      exact buildLoop_true_formula ctx para fontMap _ _ _ _ _ _
        (by intro p hp; cases hp) hb2
    | breaker =>
      rw [hb2] at hti
      simp at hti
    | fail =>
      rw [hb2] at hti
      simp at hti

/-- C10: for a backend without LLM capability (support_llm_translate false),
pre_translate_paragraph always builds the translate input with rich-text
translation forced off, so every TranslateInput it produces contains no
rich-text placeholders — only formula placeholders can appear. -/
theorem pre_translate_no_rich_without_llm (ctx : ILCtx) (para : PdfParagraph)
    (tr : ParagraphTracker) (pfm : Nat → PdfFont) (xfm : Nat → Option (Nat → PdfFont))
    (text : Str) (ti : TranslateInput)
    (hs : ctx.support_llm_translate = false)
    (h : (pre_translate_paragraph ctx para tr pfm xfm).1 = some (text, ti)) :
    ∀ p ∈ ti.placeholders, p.isFormulaPh = true := by
  unfold pre_translate_paragraph at h
  by_cases hv : para.vertical = true
  · simp [hv] at h
  · have hv2 : para.vertical = false := by simpa using hv
    simp only [hv2, Bool.false_eq_true, if_false, hs] at h
    revert h
    generalize (match para.xobj_id with
      | some x => (xfm x).getD pfm
      | none => pfm) = fm
    intro h
    cases hg : get_translate_input ctx para fm (some true) with
    | none =>
      rw [hg] at h
      simp at h
    | some ti2 =>
      rw [hg] at h
      by_cases hlen : ti2.unicode.length < ctx.min_text_length
      · simp [hlen] at h
      · simp only [hlen, if_false] at h
        simp only [Option.some.injEq, Prod.mk.injEq] at h
        obtain ⟨-, h2⟩ := h
        subst h2
        exact get_translate_input_true_formula ctx para fm ti2 hg

theorem create_formula_placeholder_no_collision (ctx : ILCtx) (f : PdfFormula)
    (para : PdfParagraph) :
    ∀ (fuel pid i : Nat) (ff : PdfFormula) (tok : Str),
      create_formula_placeholder ctx f para fuel pid = some (.formula i ff tok) →
      inStr tok para.unicode = false := by
  intro fuel
  induction fuel with
  | zero => intro pid i ff tok h; cases h
  | succ fuel ih =>
    intro pid i ff tok h
    simp only [create_formula_placeholder] at h
    split at h
    · exact ih (pid + 1) i ff tok h
    · rename_i hcol
      cases h
      simpa using hcol

theorem create_formula_placeholder_retry (ctx : ILCtx) (f : PdfFormula)
    (para : PdfParagraph) (fuel pid : Nat)
    (hcol : inStr (ctx.getFormularPlaceholder pid) para.unicode = true) :
    create_formula_placeholder ctx f para (fuel + 1) pid =
      create_formula_placeholder ctx f para fuel (pid + 1) := by
  simp only [create_formula_placeholder]
  rw [if_pos hcol]

theorem create_rich_text_placeholder_no_collision (ctx : ILCtx)
    (ssc : PdfSameStyleCharacters) (para : PdfParagraph) :
    ∀ (fuel pid i : Nat) (c : PdfSameStyleCharacters) (l r : Str),
      create_rich_text_placeholder ctx ssc para fuel pid = some (.rich i c l r) →
      inStr l para.unicode = false ∧ inStr r para.unicode = false := by
  intro fuel
  induction fuel with
  | zero => intro pid i c l r h; cases h
  | succ fuel ih =>
    intro pid i c l r h
    simp only [create_rich_text_placeholder] at h
    split at h
    · exact ih (pid + 1) i c l r h
    · rename_i hcol
      cases h
      have hcol2 : (inStr (ctx.getRichTextLeftPlaceholder pid) para.unicode ||
          inStr (ctx.getRichTextRightPlaceholder pid) para.unicode) = false := by
        simpa using hcol
      exact Bool.or_eq_false_iff.mp hcol2

theorem create_rich_text_placeholder_retry (ctx : ILCtx)
    (ssc : PdfSameStyleCharacters) (para : PdfParagraph) (fuel pid : Nat)
    (hcol : inStr (ctx.getRichTextLeftPlaceholder pid) para.unicode = true ∨
      inStr (ctx.getRichTextRightPlaceholder pid) para.unicode = true) :
    create_rich_text_placeholder ctx ssc para (fuel + 1) pid =
      create_rich_text_placeholder ctx ssc para fuel (pid + 1) := by
  simp only [create_rich_text_placeholder]
  rw [if_pos (by rcases hcol with h2 | h2 <;> simp [h2])]

/-- C3: the placeholder factory never returns a token occurring verbatim in
the paragraph's current text: a returned FormulaPlaceholder's token and a
returned RichTextPlaceholder's left and right tokens do not occur in
paragraph.unicode, and when the provider's token (or either rich-text token)
collides with the paragraph text the factory retries with the id incremented
by 1.  (The fuel argument models the source's unbounded recursion; a some
result is exactly a returned placeholder.) -/
theorem placeholder_tokens_collision_free (ctx : ILCtx) (f : PdfFormula)
    (ssc : PdfSameStyleCharacters) (para : PdfParagraph) (fuel pid : Nat) :
    (∀ (i : Nat) (ff : PdfFormula) (tok : Str),
        create_formula_placeholder ctx f para fuel pid = some (.formula i ff tok) →
        inStr tok para.unicode = false) ∧
    (inStr (ctx.getFormularPlaceholder pid) para.unicode = true →
        create_formula_placeholder ctx f para (fuel + 1) pid =
          create_formula_placeholder ctx f para fuel (pid + 1)) ∧
    (∀ (i : Nat) (c : PdfSameStyleCharacters) (l r : Str),
        create_rich_text_placeholder ctx ssc para fuel pid = some (.rich i c l r) →
        inStr l para.unicode = false ∧ inStr r para.unicode = false) ∧
    ((inStr (ctx.getRichTextLeftPlaceholder pid) para.unicode = true ∨
        inStr (ctx.getRichTextRightPlaceholder pid) para.unicode = true) →
        create_rich_text_placeholder ctx ssc para (fuel + 1) pid =
          create_rich_text_placeholder ctx ssc para fuel (pid + 1)) := by
  exact ⟨fun i ff tok h => create_formula_placeholder_no_collision ctx f para fuel pid i ff tok h,
    create_formula_placeholder_retry ctx f para fuel pid,
    fun i c l r h => create_rich_text_placeholder_no_collision ctx ssc para fuel pid i c l r h,
    create_rich_text_placeholder_retry ctx ssc para fuel pid⟩

/-- C9: every submitted paragraph task carries priority 1048576 minus the
paragraph's estimated token count, so of two submissions the one with the
strictly smaller token count has the strictly greater priority, and a
failing token counter degrades the estimate to 0 instead of raising. -/
theorem process_page_priority_ordering (ctx : ILCtx) (paragraphs : List PdfParagraph) :
    (∀ s ∈ process_page ctx paragraphs,
      s.priority = (1048576 : Int) - s.paragraph_token_count ∧
      s.paragraph_token_count = calc_token_count ctx s.para.unicode) ∧
    (∀ s ∈ process_page ctx paragraphs, ∀ t2 ∈ process_page ctx paragraphs,
      s.paragraph_token_count < t2.paragraph_token_count → t2.priority < s.priority) ∧
    (∀ (text : Str) (e : PyErr), ctx.tokenizerEncode text = .error e →
      calc_token_count ctx text = 0) := by
  refine ⟨?_, ?_, ?_⟩
  · intro s hs
    simp only [process_page, List.mem_map] at hs
    obtain ⟨p, -, rfl⟩ := hs
    exact ⟨rfl, rfl⟩
  · intro s hs t2 ht2 hlt
    simp only [process_page, List.mem_map] at hs ht2
    obtain ⟨p, -, rfl⟩ := hs
    obtain ⟨q, -, rfl⟩ := ht2
    simp only at hlt ⊢
    omega
  · intro text e he
    unfold calc_token_count
    rw [he]

/- ---------------------------------------------------------------------
   Concrete instances used by the counterexamples and witnesses.
   --------------------------------------------------------------------- -/

def noStyle : PdfStyle := ⟨0, 0⟩

def styleB : PdfStyle := ⟨1, 1⟩

def fm0 : Nat → PdfFont := fun _ => ⟨0⟩

def xfm0 : Nat → Option (Nat → PdfFont) := fun _ => none

def tr0 : ParagraphTracker := ⟨none, none, none, []⟩

/-- A translator context with the default token shapes and a plain backend. -/
def baseCtx : ILCtx :=
  ⟨fun _ => pyStr "{v1}", fun _ => pyStr "<b1>", fun _ => pyStr "</b1>",
    false, 1, false,
    fun _ _ => false, fun _ _ => false, fun _ _ => false,
    fun _ => none, 5, fun s => s, fun s => Except.ok s,
    fun s => Except.ok (s.map fun _ => 0)⟩

def formC1 : PdfFormula := ⟨[⟨pyStr "x+y"⟩]⟩

def tiC1 : TranslateInput :=
  ⟨pyStr "See {v1} here", [.formula 1 formC1 (pyStr "{v1}")], noStyle⟩

def outC1 : Str := pyStr "Voir {v1} la"

def compsC1 : List PdfParagraphComposition :=
  [.pdf_same_style_unicode_characters ⟨pyStr "Voir ", some noStyle⟩,
    .pdf_formula formC1,
    .pdf_same_style_unicode_characters ⟨pyStr " la", some noStyle⟩]

def runC5 : PdfSameStyleCharacters := ⟨[⟨pyStr "World"⟩], styleB⟩

def tiC5 : TranslateInput :=
  ⟨pyStr "Hello <b1>World</b1>", [.rich 1 runC5 (pyStr "<b1>") (pyStr "</b1>")], noStyle⟩

def outC5 : Str := pyStr "Bonjour <b1>Monde</b1>"

def compsC5 : List PdfParagraphComposition :=
  [.pdf_same_style_unicode_characters ⟨pyStr "Bonjour ", some noStyle⟩,
    .pdf_same_style_unicode_characters ⟨pyStr "Monde", some styleB⟩]

/-- A backend whose formula token has an upper-case letter the translator
folds to lower case: the reparser finds the token case-insensitively but the
exact-equality disambiguation then fails and raises StopIteration. -/
def ctxC2 : ILCtx :=
  { baseCtx with
    getFormularPlaceholder := fun _ => pyStr "{V1}",
    engine := fun _ => Except.ok (pyStr "See {v1}") }

def paraC2 : PdfParagraph :=
  ⟨pyStr "See x", [.pdf_line [⟨pyStr "See "⟩], .pdf_formula ⟨[⟨pyStr "x"⟩]⟩],
    noStyle, false, none, pyStr "plain"⟩

def ctxC3 : ILCtx :=
  { baseCtx with
    getFormularPlaceholder := fun i => if i = 1 then pyStr "AB" else pyStr "C1",
    getRichTextLeftPlaceholder := fun i => if i = 1 then pyStr "AB" else pyStr "L2",
    getRichTextRightPlaceholder := fun _ => pyStr "R9" }

def paraC3 : PdfParagraph := ⟨pyStr "xABx", [], noStyle, false, none, pyStr "t"⟩

def fC3 : PdfFormula := ⟨[]⟩

def sscC3 : PdfSameStyleCharacters := ⟨[], styleB⟩

def ctxC4 : ILCtx :=
  { baseCtx with
    getRichTextLeftPlaceholder := fun _ => pyStr "<L>",
    getRichTextRightPlaceholder := fun _ => pyStr "</L>" }

def sscC4 : PdfSameStyleCharacters := ⟨[⟨pyStr "a"⟩], styleB⟩

/-- A paragraph whose 41 styled runs all need placeholders. -/
def paraC4 : PdfParagraph :=
  ⟨pyStr "Uu", List.replicate 41 (.pdf_same_style_characters sscC4),
    noStyle, false, none, pyStr "t"⟩

def tiC4 : TranslateInput := ⟨List.replicate 41 'a', [], noStyle⟩

def tiC6 : TranslateInput := ⟨pyStr "Hello", [], noStyle⟩

def trC6 : ParagraphTracker := ⟨none, none, none, [LLMTracker.fresh]⟩

def paraC6 : PdfParagraph := ⟨pyStr "Hello", [], noStyle, false, none, pyStr "t"⟩

def sscC8 : PdfSameStyleCharacters := ⟨[⟨pyStr "Hi"⟩], styleB⟩

/-- A paragraph with exactly one same-style-characters composition. -/
def paraC8 : PdfParagraph :=
  ⟨pyStr "Hi", [.pdf_same_style_characters sscC8], noStyle, false, none, pyStr "t"⟩

def paraEmpty : PdfParagraph := ⟨pyStr "z", [], noStyle, false, none, pyStr "t"⟩

def paraLine : PdfParagraph :=
  ⟨pyStr "ab", [.pdf_line [⟨pyStr "ab"⟩]], noStyle, false, none, pyStr "t"⟩

def paraFormulaOnly : PdfParagraph :=
  ⟨pyStr "x", [.pdf_formula ⟨[⟨pyStr "x"⟩]⟩], noStyle, false, none, pyStr "t"⟩

def ctxC9 : ILCtx :=
  { baseCtx with
    tokenizerEncode := fun s =>
      if s.isEmpty then Except.error PyErr.backendError
      else Except.ok (s.map fun _ => 0) }

def paraA : PdfParagraph := ⟨pyStr "aa", [], noStyle, false, none, pyStr "t"⟩

def paraB : PdfParagraph := ⟨pyStr "aaaa", [], noStyle, false, none, pyStr "t"⟩

def paraC10 : PdfParagraph :=
  ⟨pyStr "Hello World",
    [.pdf_line [⟨pyStr "Hello "⟩], .pdf_same_style_characters runC5],
    noStyle, false, none, pyStr "t"⟩

def tiC10 : TranslateInput := ⟨pyStr "Hello World", [], noStyle⟩

/- ---------------------------------------------------------------------
   Counterexamples and witnesses.
   --------------------------------------------------------------------- -/

/-- An exception raised by the reparser (StopIteration: the case-folded
token fails the exact-equality disambiguation) is caught at the task
boundary, yet the paragraph is NOT in its pre-translation state: its
unicode field already holds the translated text. -/
theorem translate_paragraph_counterexample :
    (translate_paragraph ctxC2 paraC2 tr0 fm0 xfm0).caught = some PyErr.stopIteration ∧
    ¬((translate_paragraph ctxC2 paraC2 tr0 fm0 xfm0).para.unicode = paraC2.unicode ∧
      (translate_paragraph ctxC2 paraC2 tr0 fm0 xfm0).para.pdf_paragraph_composition =
        paraC2.pdf_paragraph_composition) := by
  constructor
  · decide
  · decide

theorem translate_paragraph_exception_isolation_witness :
    (translate_paragraph ctxC2 paraC2 tr0 fm0 xfm0).caught.isSome = true ∧
    ((translate_paragraph ctxC2 paraC2 tr0 fm0 xfm0).para.pdf_paragraph_composition =
        paraC2.pdf_paragraph_composition ∧
      (∃ u, (translate_paragraph ctxC2 paraC2 tr0 fm0 xfm0).para =
        { paraC2 with unicode := u }) ∧
      ((translate_paragraph ctxC2 paraC2 tr0 fm0 xfm0).invokedReparse = false →
        (translate_paragraph ctxC2 paraC2 tr0 fm0 xfm0).para = paraC2)) :=
  ⟨by decide,
    translate_paragraph_exception_isolation ctxC2 paraC2 tr0 fm0 xfm0 (by decide)⟩

theorem parse_translate_output_full_coverage_witness :
    tiC1.placeholders ≠ [] ∧
    (parse_translate_output tiC1 outC1).result = .ok compsC1 ∧
    (((scanSegs (captureAlts tiC1.placeholders) outC1 0).map Seg.src).flatten = outC1 ∧
      renderAll tiC1.placeholders tiC1.base_style
        (scanSegs (captureAlts tiC1.placeholders) outC1 0) = .ok compsC1 ∧
      ∀ g, Seg.gap g ∈ scanSegs (captureAlts tiC1.placeholders) outC1 0 →
        renderSeg tiC1.placeholders tiC1.base_style (Seg.gap g) =
          .ok (.pdf_same_style_unicode_characters
            ⟨removePlaceholder tiC1.placeholders g, some tiC1.base_style⟩)) :=
  ⟨by decide, by decide,
    parse_translate_output_full_coverage tiC1 outC1 compsC1 (by decide) (by decide)⟩

theorem placeholder_tokens_collision_free_witness :
    (create_formula_placeholder ctxC3 fC3 paraC3 4 1 =
        some (.formula 2 fC3 (pyStr "C1"))) ∧
    inStr (pyStr "C1") paraC3.unicode = false ∧
    inStr (ctxC3.getFormularPlaceholder 1) paraC3.unicode = true ∧
    (create_formula_placeholder ctxC3 fC3 paraC3 5 1 =
      create_formula_placeholder ctxC3 fC3 paraC3 4 2) ∧
    (create_rich_text_placeholder ctxC3 sscC3 paraC3 4 1 =
        some (.rich 2 sscC3 (pyStr "L2") (pyStr "R9"))) ∧
    (inStr (pyStr "L2") paraC3.unicode = false ∧
      inStr (pyStr "R9") paraC3.unicode = false) ∧
    (create_rich_text_placeholder ctxC3 sscC3 paraC3 5 1 =
      create_rich_text_placeholder ctxC3 sscC3 paraC3 4 2) :=
  ⟨by decide,
    (placeholder_tokens_collision_free ctxC3 fC3 sscC3 paraC3 4 1).1 2 fC3 (pyStr "C1")
      (by decide),
    by decide,
    (placeholder_tokens_collision_free ctxC3 fC3 sscC3 paraC3 4 1).2.1 (by decide),
    by decide,
    (placeholder_tokens_collision_free ctxC3 fC3 sscC3 paraC3 4 1).2.2.1 2 sscC3
      (pyStr "L2") (pyStr "R9") (by decide),
    (placeholder_tokens_collision_free ctxC3 fC3 sscC3 paraC3 4 1).2.2.2
      (Or.inl (by decide))⟩

theorem get_translate_input_circuit_breaker_witness :
    (some false).getD ctxC4.disable_rich_text_translate = false ∧
    buildLoop ctxC4 paraC4 fm0 false paraC4.pdf_paragraph_composition 1 [] [] =
      .breaker ∧
    get_translate_input ctxC4 paraC4 fm0 (some false) = some tiC4 ∧
    ∀ p ∈ tiC4.placeholders, p.isFormulaPh = true :=
  ⟨by decide, by decide, by decide,
    get_translate_input_circuit_breaker ctxC4 paraC4 fm0 (some false) tiC4
      (by decide) (by decide) (by decide)⟩

theorem parse_translate_output_style_identity_witness :
    tiC5.placeholders ≠ [] ∧
    (parse_translate_output tiC5 outC5).result = .ok compsC5 ∧
    (scanSegs (captureAlts tiC5.placeholders) outC5 0)[1]? =
      some (Seg.hit (pyStr "<b1>Monde</b1>")) ∧
    findFormulaExact tiC5.placeholders (pyStr "<b1>Monde</b1>") = none ∧
    findRichByLeft tiC5.placeholders (pyStr "<b1>Monde</b1>") =
      some (.rich 1 runC5 (pyStr "<b1>") (pyStr "</b1>")) ∧
    pyAnchorInner (pyStr "<b1>") (pyStr "</b1>") (pyStr "<b1>Monde</b1>") =
      some (pyStr "Monde") ∧
    compsC5[1]? = some
      (if removeSpaces (pyStr "Monde") ==
          removeSpaces (get_char_unicode_string runC5.pdf_character)
        then PdfParagraphComposition.pdf_same_style_characters runC5
        else PdfParagraphComposition.pdf_same_style_unicode_characters
          ⟨removePlaceholder tiC5.placeholders (pyStr "Monde"), some runC5.pdf_style⟩) :=
  ⟨by decide, by decide, by decide, by decide, by decide, by decide,
    parse_translate_output_style_identity tiC5 outC5 compsC5 1
      (pyStr "<b1>Monde</b1>") 1 runC5 (pyStr "<b1>") (pyStr "</b1>") (pyStr "Monde")
      (by decide) (by decide) (by decide) (by decide) (by decide) (by decide)⟩

theorem post_translate_identity_frame_witness :
    pyStr "Hello" = tiC6.unicode ∧
    trC6.attempts ≠ [] ∧
    ((post_translate_paragraph paraC6 trC6 tiC6 (pyStr "Hello")).para = paraC6 ∧
      (post_translate_paragraph paraC6 trC6 tiC6 (pyStr "Hello")).invokedReparse = false ∧
      (post_translate_paragraph paraC6 trC6 tiC6 (pyStr "Hello")).raised = none ∧
      ((post_translate_paragraph paraC6 trC6 tiC6 (pyStr "Hello")).tracker.attempts.getLast?.map
        LLMTracker.placeholder_full_match) = some true ∧
      (post_translate_paragraph paraC6 trC6 tiC6 (pyStr "Hello")).changed = false) :=
  ⟨rfl, by decide,
    post_translate_identity_frame paraC6 trC6 tiC6 (pyStr "Hello") rfl (by decide)⟩

theorem parse_translate_output_no_placeholders_witness :
    tiC6.placeholders = [] ∧
    parse_translate_output tiC6 (pyStr "Bonjour") =
      ⟨.ok [.pdf_same_style_unicode_characters ⟨pyStr "Bonjour", some tiC6.base_style⟩],
        true⟩ :=
  ⟨rfl, parse_translate_output_no_placeholders tiC6 (pyStr "Bonjour") rfl⟩

/-- A lone same-style-characters composition does not yield nothing: the
builder passes it through verbatim as a placeholder-free TranslateInput. -/
theorem get_translate_input_small_cases_counterexample :
    paraC8.pdf_paragraph_composition =
      [.pdf_same_style_characters sscC8] ∧
    get_translate_input baseCtx paraC8 fm0 (some false) =
      some ⟨paraC8.unicode, [], paraC8.pdf_style⟩ ∧
    get_translate_input baseCtx paraC8 fm0 (some false) ≠ none := by
  refine ⟨by decide, by decide, by decide⟩

theorem get_translate_input_small_cases_witness :
    (paraEmpty.pdf_paragraph_composition = [] ∧
      get_translate_input baseCtx paraEmpty fm0 (some false) = none) ∧
    (paraLine.pdf_paragraph_composition = [.pdf_line [⟨pyStr "ab"⟩]] ∧
      get_translate_input baseCtx paraLine fm0 (some false) =
        some ⟨paraLine.unicode, [], paraLine.pdf_style⟩) ∧
    (paraFormulaOnly.pdf_paragraph_composition = [.pdf_formula ⟨[⟨pyStr "x"⟩]⟩] ∧
      get_translate_input baseCtx paraFormulaOnly fm0 (some false) = none) ∧
    (paraC8.pdf_paragraph_composition = [.pdf_same_style_characters sscC8] ∧
      get_translate_input baseCtx paraC8 fm0 (some false) =
        some ⟨paraC8.unicode, [], paraC8.pdf_style⟩) :=
  ⟨⟨by decide, (get_translate_input_small_cases baseCtx paraEmpty fm0 (some false)).1
      (by decide)⟩,
    ⟨by decide, (get_translate_input_small_cases baseCtx paraLine fm0 (some false)).2.1
      [⟨pyStr "ab"⟩] (by decide)⟩,
    ⟨by decide, (get_translate_input_small_cases baseCtx paraFormulaOnly fm0
      (some false)).2.2.2.2.1 ⟨[⟨pyStr "x"⟩]⟩ (by decide)⟩,
    ⟨by decide, (get_translate_input_small_cases baseCtx paraC8 fm0 (some false)).2.2.2.1
      sscC8 (by decide)⟩⟩

theorem process_page_priority_ordering_witness :
    (⟨paraA, 1048574, 2⟩ : Submission) ∈ process_page ctxC9 [paraA, paraB] ∧
    (⟨paraB, 1048572, 4⟩ : Submission) ∈ process_page ctxC9 [paraA, paraB] ∧
    (2 : Nat) < 4 ∧
    ((1048572 : Int) < 1048574) ∧
    ctxC9.tokenizerEncode [] = .error PyErr.backendError ∧
    calc_token_count ctxC9 [] = 0 :=
  ⟨by decide, by decide, by decide,
    (process_page_priority_ordering ctxC9 [paraA, paraB]).2.1
      ⟨paraA, 1048574, 2⟩ (by decide) ⟨paraB, 1048572, 4⟩ (by decide) (by decide),
    by decide,
    (process_page_priority_ordering ctxC9 [paraA, paraB]).2.2 [] PyErr.backendError
      (by decide)⟩

theorem pre_translate_no_rich_without_llm_witness :
    baseCtx.support_llm_translate = false ∧
    (pre_translate_paragraph baseCtx paraC10 tr0 fm0 xfm0).1 =
      some (pyStr "Hello World", tiC10) ∧
    ∀ p ∈ tiC10.placeholders, p.isFormulaPh = true :=
  ⟨by decide, by decide,
    pre_translate_no_rich_without_llm baseCtx paraC10 tr0 fm0 xfm0
      (pyStr "Hello World") tiC10 (by decide) (by decide)⟩

end BabelDoc
